import Mathlib

/-
Verification of the scoring / aggregation / group / cache core of the
lm-evaluation-harness refactor.

Shallow embedding conventions:
* Python floats are modelled as rationals (ℚ); all arithmetic is exact.
* Python dicts are insertion-ordered association lists; `dlookup` models
  `d.get(k)` / `k in d`, `dinsert` models `d[k] = v` (overwrite in place,
  append when fresh).
* Python exceptions are modelled with `Except`; a function that swallows
  exceptions is total in the embedding.
* Task objects are identified by their task name (the aggregators use a
  task only through its name, via `getattr(task, "task_name", ...)`).
-/

namespace LmEval

/-- Python dict lookup (`d.get(k)`); also decides `k in d`. -/
def dlookup {α : Type} : List (String × α) → String → Option α
  | [], _ => none
  | (k, v) :: rest, key => if k = key then some v else dlookup rest key

/-- Python dict assignment `d[k] = v`: overwrite in place when the key is
present, append at the end otherwise (insertion order preserved). -/
def dinsert {α : Type} : List (String × α) → String → α → List (String × α)
  | [], key, v => [(key, v)]
  | (k, w) :: rest, key, v =>
    if k = key then (key, v) :: rest else (k, w) :: dinsert rest key v

/-- Per-task metric dict: metric key → value (`task_results[task_name]`). -/
abbrev MetricDict := List (String × ℚ)

/-- Model of `task_results`: task name → its flat metric dict. -/
abbrev TaskResults := List (String × MetricDict)

/-- A field that Python allows to be either a `str` or a `list` of `str`
(the `filter_list` field of `AggMetricConfig`). -/
inductive StrOrList where
  | str (s : String)
  | list (l : List String)
deriving DecidableEq

/-- The `isinstance(filter_list, str)` normalisation performed both by
`AggMetricConfig.__post_init__` and at the top of every `aggregate`. -/
def StrOrList.normalize : StrOrList → List String
  | .str s => [s]
  | .list l => l

/-- The `aggregation` field of an `AggMetricConfig`: either a kind string or
a directly invocable callable `(group, task_results) -> metrics`.
A custom callable is modelled through the leaf-task-name list of the group. -/
inductive Aggregation where
  | str (s : String)
  | fn (f : List String → TaskResults → MetricDict)

/-- The `callable(agg_type)` test from `AggregatorFactory.create_aggregator`. -/
def Aggregation.callable : Aggregation → Bool
  | .str _ => false
  | .fn _ => true

/-- Embedding of `lm_eval.api.group.AggMetricConfig` (dataclass fields; the dataclass
declares no `kwargs` field, which matters for the pass@k branch of the
factory). -/
structure AggMetricConfig where
  metric : String
  aggregation : Aggregation
  weight_by_size : Bool
  filter_list : StrOrList

/-- Embedding of `AggMetricConfig.__post_init__`: rejects any aggregation that is neither
the string mean nor a callable, then normalises `filter_list` to a list. -/
def AggMetricConfig.post_init (metric : String) (aggregation : Aggregation)
    (weight_by_size : Bool) (filter_list : StrOrList) :
    Except String AggMetricConfig :=
  match aggregation with
  | .str s =>
    if s ≠ "mean" then
      .error "Currently, mean is the only pre-defined aggregation across groups subtasks."
    else
      .ok ⟨metric, .str s, weight_by_size, .list filter_list.normalize⟩
  | .fn f => .ok ⟨metric, .fn f, weight_by_size, .list filter_list.normalize⟩

/-- Embedding of `lm_eval.api.group.GroupConfig` (the fields the aggregation core reads). -/
structure GroupConfig where
  group : Option String := none
  group_alias : Option String := none
  aggregate_metric_list : Option (List AggMetricConfig) := none

/-- The metric key format `f"{metric_name},{filter_name}"`. -/
def metricKey (metric filter_name : String) : String :=
  metric ++ "," ++ filter_name

/-- The body of the per-task loop of `MeanAggregator.aggregate`: walks the
group tasks in order, keeping `(value, weight)` for every task that is
present in `task_results` and whose dict has `metric_key`; the weight is
`task_results[task_name].get("samples", 1)` when `weight_by_size` else 1. -/
def MeanAggregator.collect (results : TaskResults) (metric_key : String)
    (weight_by_size : Bool) : List String → List ℚ × List ℚ
  | [] => ([], [])
  | t :: rest =>
    match dlookup results t with
    | none => MeanAggregator.collect results metric_key weight_by_size rest
    | some td =>
      match dlookup td metric_key with
      | none => MeanAggregator.collect results metric_key weight_by_size rest
      | some v =>
        let w : ℚ :=
          if weight_by_size then (dlookup td "samples").getD 1 else 1
        let (vs, ws) := MeanAggregator.collect results metric_key weight_by_size rest
        (v :: vs, w :: ws)

/-- One iteration of the `for filter_name in filter_list` loop of
`MeanAggregator.aggregate`: writes `Σ(v·w)/Σw` under the metric key when at
least one task contributed, leaves the accumulator untouched otherwise. -/
def MeanAggregator.aggFilter (tasks : List String) (results : TaskResults)
    (metric : String) (weight_by_size : Bool) (acc : MetricDict)
    (filter_name : String) : MetricDict :=
  let key := metricKey metric filter_name
  let vw := MeanAggregator.collect results key weight_by_size tasks
  if vw.1 = [] then acc
  else
    dinsert acc key
      (((vw.1.zip vw.2).map fun p => p.1 * p.2).sum / vw.2.sum)

/-- One iteration of the `for agg_config in self.agg_metric_configs` loop. -/
def MeanAggregator.aggConfig (tasks : List String) (results : TaskResults)
    (acc : MetricDict) (cfg : AggMetricConfig) : MetricDict :=
  cfg.filter_list.normalize.foldl
    (MeanAggregator.aggFilter tasks results cfg.metric cfg.weight_by_size) acc

/-- Embedding of `MeanAggregator.aggregate` (src/lm_eval/api/aggregator.py): `tasks` is
the name list of `group.get_all_tasks()`. -/
def MeanAggregator.aggregate (agg_metric_configs : List AggMetricConfig)
    (tasks : List String) (results : TaskResults) : MetricDict :=
  agg_metric_configs.foldl (MeanAggregator.aggConfig tasks results) []

/-- The shared value-collection loop of the harmonic / pass@k aggregators:
`values.append(task_results[task_name][metric_key])` for every task present
with the key. -/
def collectValues (results : TaskResults) (metric_key : String)
    (tasks : List String) : List ℚ :=
  tasks.filterMap fun t => (dlookup results t).bind fun td => dlookup td metric_key

/-- One filter iteration of `HarmonicMeanAggregator.aggregate`:
`n / Σ(1/v)` when all contributing values are positive, `0.0` when some
value is not, nothing when no task contributed. -/
def HarmonicMeanAggregator.aggFilter (tasks : List String)
    (results : TaskResults) (metric : String) (acc : MetricDict)
    (filter_name : String) : MetricDict :=
  let key := metricKey metric filter_name
  let values := collectValues results key tasks
  if values ≠ [] ∧ values.all (fun v => 0 < v) then
    dinsert acc key ((values.length : ℚ) / (values.map fun v => 1 / v).sum)
  else if values ≠ [] then
    dinsert acc key 0
  else acc

/-- One config iteration of `HarmonicMeanAggregator.aggregate`. -/
def HarmonicMeanAggregator.aggConfig (tasks : List String)
    (results : TaskResults) (acc : MetricDict) (cfg : AggMetricConfig) :
    MetricDict :=
  cfg.filter_list.normalize.foldl
    (HarmonicMeanAggregator.aggFilter tasks results cfg.metric) acc

/-- Embedding of `HarmonicMeanAggregator.aggregate` (src/lm_eval/api/aggregator.py). -/
def HarmonicMeanAggregator.aggregate (agg_metric_configs : List AggMetricConfig)
    (tasks : List String) (results : TaskResults) : MetricDict :=
  agg_metric_configs.foldl (HarmonicMeanAggregator.aggConfig tasks results) []

/-- One filter iteration of `PassAtKAggregator.aggregate` (the shipped
placeholder): plain arithmetic mean of the contributing values. -/
def PassAtKAggregator.aggFilter (tasks : List String) (results : TaskResults)
    (metric : String) (acc : MetricDict) (filter_name : String) : MetricDict :=
  let key := metricKey metric filter_name
  let values := collectValues results key tasks
  if values ≠ [] then
    dinsert acc key (values.sum / (values.length : ℚ))
  else acc

/-- One config iteration of `PassAtKAggregator.aggregate`. -/
def PassAtKAggregator.aggConfig (tasks : List String) (results : TaskResults)
    (acc : MetricDict) (cfg : AggMetricConfig) : MetricDict :=
  cfg.filter_list.normalize.foldl
    (PassAtKAggregator.aggFilter tasks results cfg.metric) acc

/-- Embedding of `PassAtKAggregator.aggregate` (src/lm_eval/api/aggregator.py); the `k`
parameter of the aggregator is never read by this placeholder body. -/
def PassAtKAggregator.aggregate (agg_metric_configs : List AggMetricConfig)
    (tasks : List String) (results : TaskResults) : MetricDict :=
  agg_metric_configs.foldl (PassAtKAggregator.aggConfig tasks results) []

/-- The aggregator chosen by `AggregatorFactory.create_aggregator`. -/
inductive AggregatorKind where
  | noOp
  | mean
  | harmonicMean
  | geometricMean
  | passAtK (k : ℚ)
  | custom (f : List String → TaskResults → MetricDict)

/-- Embedding of `AggregatorFactory.create_aggregator` (src/lm_eval/api/aggregator.py):
dispatch on the first entry of `aggregate_metric_list`; the `ValueError` of
the final branch is the `Except.error` case.  In the pass@k branch the code
reads `first_agg.kwargs.get("k", 1) if hasattr(first_agg, "kwargs") else 1`;
an `AggMetricConfig` has no `kwargs` attribute, so `k = 1`. -/
def AggregatorFactory.create_aggregator (config : GroupConfig) :
    Except String AggregatorKind :=
  match config.aggregate_metric_list with
  | none => .ok .noOp
  | some [] => .ok .noOp
  | some (first_agg :: _) =>
    match first_agg.aggregation with
    | .str s =>
      if s = "mean" then .ok .mean
      else if s = "harmonic_mean" then .ok .harmonicMean
      else if s = "geometric_mean" then .ok .geometricMean
      else if s = "pass@k" then .ok (.passAtK 1)
      else
        .error ("Unknown aggregation type: " ++ s ++
          ". Expected one of: mean, harmonic_mean, geometric_mean, pass@k, or a callable")
    | .fn f => .ok (.custom f)

/-- A constructed `StandardGroup`: configuration plus the aggregator the
factory picked for it. -/
structure StandardGroup where
  config : GroupConfig
  name : Option String
  aggregator : AggregatorKind

/-- Embedding of `StandardGroup.__init__` (src/lm_eval/api/group.py): group construction
runs `AggregatorFactory.create_aggregator(config)`, so an unknown
aggregation kind surfaces as an error at group-construction time. -/
def StandardGroup.init (config : GroupConfig) : Except String StandardGroup :=
  match AggregatorFactory.create_aggregator config with
  | .error e => .error e
  | .ok agg => .ok ⟨config, config.group, agg⟩

/-- The value a task contributes for a metric key:
`task_results[task_name][metric_key]` when the task is present in
`task_results` and its dict has the key. -/
def taskValue (results : TaskResults) (key : String) (t : String) : Option ℚ :=
  (dlookup results t).bind fun td => dlookup td key

/-- The leaf tasks (in group order, duplicates kept) whose `task_results`
entry contains the metric key — exactly the tasks the aggregators gather. -/
def contributing (tasks : List String) (results : TaskResults) (key : String) :
    List String :=
  tasks.filter fun t => (taskValue results key t).isSome

/-- The weight `MeanAggregator` uses for a contributing task: the value of
its `"samples"` entry (default 1) when weighting by size, 1 otherwise. -/
def taskWeight (results : TaskResults) (weight_by_size : Bool) (t : String) : ℚ :=
  if weight_by_size then
    match dlookup results t with
    | some td => (dlookup td "samples").getD 1
    | none => 1
  else 1

/-- The weighted mean `Σ(value·weight)/Σweight` over the contributing tasks. -/
def weightedMeanValue (tasks : List String) (results : TaskResults)
    (weight_by_size : Bool) (key : String) : ℚ :=
  ((contributing tasks results key).map fun t =>
    (taskValue results key t).getD 0 * taskWeight results weight_by_size t).sum /
  ((contributing tasks results key).map (taskWeight results weight_by_size)).sum

/-- The value `HarmonicMeanAggregator` writes for a nonempty value list:
`n / Σ(1/v)` when all values are positive, `0` otherwise. -/
def harmonicValue (tasks : List String) (results : TaskResults) (key : String) : ℚ :=
  if (collectValues results key tasks).all (fun v => 0 < v) then
    ((collectValues results key tasks).length : ℚ) /
      ((collectValues results key tasks).map fun v => 1 / v).sum
  else 0

/-- The value the pass@k placeholder writes: the arithmetic mean. -/
def passAtKValue (tasks : List String) (results : TaskResults) (key : String) : ℚ :=
  (collectValues results key tasks).sum /
    ((collectValues results key tasks).length : ℚ)

theorem dlookup_dinsert {α : Type} (d : List (String × α)) (k k' : String) (v : α) :
    dlookup (dinsert d k v) k' = if k = k' then some v else dlookup d k' := by
  induction d with
  | nil => simp [dinsert, dlookup]
  | cons p rest ih =>
    obtain ⟨k₀, v₀⟩ := p
    by_cases h : k₀ = k
    · subst h
      by_cases hk : k₀ = k' <;> simp [dinsert, dlookup, hk]
    · by_cases hk' : k₀ = k'
      · subst hk'
        have h2 : ¬ k = k₀ := fun hh => h hh.symm
        simp [dinsert, dlookup, h, h2]
      · simp [dinsert, dlookup, h, hk', ih]

theorem zip_map_mul {α : Type} (l : List α) (g h : α → ℚ) :
    (((l.map g).zip (l.map h)).map fun p => p.1 * p.2) =
      l.map fun t => g t * h t := by
  induction l with
  | nil => simp
  | cons a l ih => simp [ih]

/-- Characterisation of the `for filter_name in filter_list` fold for any
per-filter step that writes a key-determined value when a key-determined
condition holds and leaves the dict untouched otherwise. -/
theorem foldl_writer (metric : String) (c : String → Prop) [DecidablePred c]
    (V : String → ℚ) (step : MetricDict → String → MetricDict)
    (hstep : ∀ acc f k, dlookup (step acc f) k =
      if metricKey metric f = k ∧ c k then some (V k) else dlookup acc k)
    (fs : List String) :
    ∀ (acc : MetricDict) (k : String),
      dlookup (fs.foldl step acc) k =
        if (∃ f ∈ fs, metricKey metric f = k) ∧ c k then some (V k)
        else dlookup acc k := by
  induction fs with
  | nil => intro acc k; simp
  | cons f fs ih =>
    intro acc k
    rw [List.foldl_cons, ih]
    by_cases hck : c k
    · by_cases hk : metricKey metric f = k
      · by_cases hfs : ∃ g ∈ fs, metricKey metric g = k
        · simp [hfs, hck, hk]
        · simp [hfs, hck, hk, hstep]
      · simp [hk, hck, hstep]
    · simp [hck, hstep]

/-- Folding the `for agg_config in self.agg_metric_configs` loop over
configs none of which declares key `k` leaves the lookup at `k` unchanged. -/
theorem foldl_configs_preserve (step : MetricDict → AggMetricConfig → MetricDict)
    (k : String)
    (hstep : ∀ acc cfg, (∀ f ∈ cfg.filter_list.normalize,
        metricKey cfg.metric f ≠ k) →
      dlookup (step acc cfg) k = dlookup acc k)
    (l : List AggMetricConfig) :
    ∀ acc : MetricDict,
      (∀ cfg ∈ l, ∀ f ∈ cfg.filter_list.normalize, metricKey cfg.metric f ≠ k) →
      dlookup (l.foldl step acc) k = dlookup acc k := by
  induction l with
  | nil => intro acc _; rfl
  | cons cfg l ih =>
    intro acc h
    rw [List.foldl_cons, ih _ fun c hc => h c (List.mem_cons_of_mem _ hc),
      hstep _ _ (h cfg (List.mem_cons_self _ _))]

/-- Folding the config loop over `pre ++ cfg :: post` where only `cfg`
declares the key of filter `f`: the lookup is the per-config value when the
per-key condition holds, and the key is absent otherwise. -/
theorem aggregate_decomp (stepCfg : MetricDict → AggMetricConfig → MetricDict)
    (c : String → Prop) [DecidablePred c] (V : AggMetricConfig → String → ℚ)
    (hstep : ∀ acc cfg k, dlookup (stepCfg acc cfg) k =
      if (∃ f ∈ cfg.filter_list.normalize, metricKey cfg.metric f = k) ∧ c k then
        some (V cfg k)
      else dlookup acc k)
    (pre post : List AggMetricConfig) (cfg : AggMetricConfig) (f : String)
    (hf : f ∈ cfg.filter_list.normalize)
    (huniq : ∀ cc ∈ pre ++ post, ∀ g ∈ cc.filter_list.normalize,
      metricKey cc.metric g ≠ metricKey cfg.metric f) :
    dlookup ((pre ++ cfg :: post).foldl stepCfg []) (metricKey cfg.metric f) =
      if c (metricKey cfg.metric f) then
        some (V cfg (metricKey cfg.metric f))
      else none := by
  rw [List.foldl_append, List.foldl_cons]
  have hpre : ∀ cc ∈ pre, ∀ g ∈ cc.filter_list.normalize,
      metricKey cc.metric g ≠ metricKey cfg.metric f :=
    fun cc hcc => huniq cc (List.mem_append_left _ hcc)
  have hpost : ∀ cc ∈ post, ∀ g ∈ cc.filter_list.normalize,
      metricKey cc.metric g ≠ metricKey cfg.metric f :=
    fun cc hcc => huniq cc (List.mem_append_right _ hcc)
  have hPreserve : ∀ (acc : MetricDict) (cc : AggMetricConfig),
      (∀ g ∈ cc.filter_list.normalize, metricKey cc.metric g
        ≠ metricKey cfg.metric f) →
      dlookup (stepCfg acc cc) (metricKey cfg.metric f) =
        dlookup acc (metricKey cfg.metric f) := by
    intro acc cc hcc
    rw [hstep, if_neg]
    rintro ⟨⟨g, hg, hgk⟩, -⟩
    exact hcc g hg hgk
  rw [foldl_configs_preserve stepCfg _ hPreserve post _ hpost]
  rw [hstep]
  have hex : ∃ g ∈ cfg.filter_list.normalize,
      metricKey cfg.metric g = metricKey cfg.metric f := ⟨f, hf, rfl⟩
  by_cases hck : c (metricKey cfg.metric f)
  · simp [hex, hck]
  · have hnot : ¬((∃ g ∈ cfg.filter_list.normalize,
        metricKey cfg.metric g = metricKey cfg.metric f) ∧
        c (metricKey cfg.metric f)) := fun h => hck h.2
    rw [if_neg hnot, foldl_configs_preserve stepCfg _ hPreserve pre _ hpre]
    simp [hck, dlookup]

theorem collect_eq (results : TaskResults) (key : String) (wbs : Bool)
    (tasks : List String) :
    MeanAggregator.collect results key wbs tasks =
      ((contributing tasks results key).map fun t => (taskValue results key t).getD 0,
       (contributing tasks results key).map (taskWeight results wbs)) := by
  induction tasks with
  | nil => simp [MeanAggregator.collect, contributing]
  | cons t rest ih =>
    simp only [MeanAggregator.collect]
    cases hr : dlookup results t with
    | none =>
      simp [contributing, List.filter_cons, taskValue, hr, ih]
    | some td =>
      cases hv : dlookup td key with
      | none =>
        simp [contributing, List.filter_cons, taskValue, hr, hv, ih]
      | some v =>
        simp [contributing, List.filter_cons, taskValue, taskWeight, hr, hv, ih]

theorem mean_aggFilter_lookup (tasks : List String) (results : TaskResults)
    (metric : String) (wbs : Bool) (acc : MetricDict) (f k : String) :
    dlookup (MeanAggregator.aggFilter tasks results metric wbs acc f) k =
      if metricKey metric f = k ∧ contributing tasks results k ≠ [] then
        some (weightedMeanValue tasks results wbs k)
      else dlookup acc k := by
  simp only [MeanAggregator.aggFilter, collect_eq]
  by_cases hk : metricKey metric f = k
  · subst hk
    by_cases hc : contributing tasks results (metricKey metric f) = []
    · simp [hc]
    · simp only [hc, List.map_eq_nil_iff, ne_eq, not_false_iff, and_true,
        if_pos rfl, if_false, ite_false, eq_self_iff_true, ite_true]
      rw [dlookup_dinsert, if_pos rfl, zip_map_mul]
      rfl
  · by_cases hc : contributing tasks results (metricKey metric f) = []
    · simp [hc, hk]
    · simp only [hc, List.map_eq_nil_iff, hk, false_and, if_false, ite_false]
      rw [dlookup_dinsert, if_neg hk]

theorem mean_aggConfig_lookup (tasks : List String) (results : TaskResults)
    (cfg : AggMetricConfig) (acc : MetricDict) (k : String) :
    dlookup (MeanAggregator.aggConfig tasks results acc cfg) k =
      if (∃ f ∈ cfg.filter_list.normalize, metricKey cfg.metric f = k)
          ∧ contributing tasks results k ≠ [] then
        some (weightedMeanValue tasks results cfg.weight_by_size k)
      else dlookup acc k := by
  exact foldl_writer cfg.metric (fun k => contributing tasks results k ≠ [])
    (weightedMeanValue tasks results cfg.weight_by_size)
    (MeanAggregator.aggFilter tasks results cfg.metric cfg.weight_by_size)
    (fun acc f k => mean_aggFilter_lookup tasks results cfg.metric
      cfg.weight_by_size acc f k)
    cfg.filter_list.normalize acc k

/-- Where `MeanAggregator.aggregate` looks up a key declared by exactly one
configuration entry: the weighted mean when some task contributes, absent
otherwise. -/
theorem mean_aggregate_lookup (pre post : List AggMetricConfig)
    (cfg : AggMetricConfig) (tasks : List String) (results : TaskResults)
    (f : String) (hf : f ∈ cfg.filter_list.normalize)
    (huniq : ∀ c ∈ pre ++ post, ∀ g ∈ c.filter_list.normalize,
      metricKey c.metric g ≠ metricKey cfg.metric f) :
    dlookup (MeanAggregator.aggregate (pre ++ cfg :: post) tasks results)
        (metricKey cfg.metric f) =
      if contributing tasks results (metricKey cfg.metric f) ≠ [] then
        some (weightedMeanValue tasks results cfg.weight_by_size
          (metricKey cfg.metric f))
      else none := by
  unfold MeanAggregator.aggregate
  exact aggregate_decomp (MeanAggregator.aggConfig tasks results)
    (fun k => contributing tasks results k ≠ [])
    (fun cfg k => weightedMeanValue tasks results cfg.weight_by_size k)
    (fun acc cfg k => mean_aggConfig_lookup tasks results cfg acc k)
    pre post cfg f hf huniq

theorem harmonic_aggFilter_lookup (tasks : List String) (results : TaskResults)
    (metric : String) (acc : MetricDict) (f k : String) :
    dlookup (HarmonicMeanAggregator.aggFilter tasks results metric acc f) k =
      if metricKey metric f = k ∧ collectValues results k tasks ≠ [] then
        some (harmonicValue tasks results k)
      else dlookup acc k := by
  simp only [HarmonicMeanAggregator.aggFilter]
  by_cases hk : metricKey metric f = k
  · subst hk
    by_cases hc : collectValues results (metricKey metric f) tasks = []
    · simp [hc]
    · by_cases hall : (collectValues results (metricKey metric f) tasks).all
          (fun v => 0 < v) = true
      · rw [if_pos ⟨hc, hall⟩, dlookup_dinsert, if_pos rfl]
        simp [harmonicValue, hall, hc]
      · have hno : ¬(collectValues results (metricKey metric f) tasks ≠ [] ∧
            (collectValues results (metricKey metric f) tasks).all
              (fun v => 0 < v) = true) := fun h => hall h.2
        rw [if_neg hno, if_pos hc, dlookup_dinsert, if_pos rfl]
        simp [harmonicValue, hall, hc]
  · have hnot : ¬(metricKey metric f = k ∧ collectValues results k tasks ≠ []) :=
      fun h => hk h.1
    rw [if_neg hnot]
    by_cases hc : collectValues results (metricKey metric f) tasks = []
    · simp [hc]
    · by_cases hall : (collectValues results (metricKey metric f) tasks).all
          (fun v => 0 < v) = true
      · rw [if_pos ⟨hc, hall⟩, dlookup_dinsert, if_neg hk]
      · have hno : ¬(collectValues results (metricKey metric f) tasks ≠ [] ∧
            (collectValues results (metricKey metric f) tasks).all
              (fun v => 0 < v) = true) := fun h => hall h.2
        rw [if_neg hno, if_pos hc, dlookup_dinsert, if_neg hk]

theorem harmonic_aggConfig_lookup (tasks : List String) (results : TaskResults)
    (cfg : AggMetricConfig) (acc : MetricDict) (k : String) :
    dlookup (HarmonicMeanAggregator.aggConfig tasks results acc cfg) k =
      if (∃ f ∈ cfg.filter_list.normalize, metricKey cfg.metric f = k)
          ∧ collectValues results k tasks ≠ [] then
        some (harmonicValue tasks results k)
      else dlookup acc k :=
  foldl_writer cfg.metric (fun k => collectValues results k tasks ≠ [])
    (harmonicValue tasks results)
    (HarmonicMeanAggregator.aggFilter tasks results cfg.metric)
    (fun acc f k => harmonic_aggFilter_lookup tasks results cfg.metric acc f k)
    cfg.filter_list.normalize acc k

/-- Where `HarmonicMeanAggregator.aggregate` looks up a key declared by
exactly one configuration entry. -/
theorem harmonic_aggregate_lookup (pre post : List AggMetricConfig)
    (cfg : AggMetricConfig) (tasks : List String) (results : TaskResults)
    (f : String) (hf : f ∈ cfg.filter_list.normalize)
    (huniq : ∀ c ∈ pre ++ post, ∀ g ∈ c.filter_list.normalize,
      metricKey c.metric g ≠ metricKey cfg.metric f) :
    dlookup (HarmonicMeanAggregator.aggregate (pre ++ cfg :: post) tasks results)
        (metricKey cfg.metric f) =
      if collectValues results (metricKey cfg.metric f) tasks ≠ [] then
        some (harmonicValue tasks results (metricKey cfg.metric f))
      else none := by
  unfold HarmonicMeanAggregator.aggregate
  exact aggregate_decomp (HarmonicMeanAggregator.aggConfig tasks results)
    (fun k => collectValues results k tasks ≠ [])
    (fun _ k => harmonicValue tasks results k)
    (fun acc cfg k => harmonic_aggConfig_lookup tasks results cfg acc k)
    pre post cfg f hf huniq

theorem passk_aggFilter_lookup (tasks : List String) (results : TaskResults)
    (metric : String) (acc : MetricDict) (f k : String) :
    dlookup (PassAtKAggregator.aggFilter tasks results metric acc f) k =
      if metricKey metric f = k ∧ collectValues results k tasks ≠ [] then
        some (passAtKValue tasks results k)
      else dlookup acc k := by
  simp only [PassAtKAggregator.aggFilter]
  by_cases hk : metricKey metric f = k
  · subst hk
    by_cases hc : collectValues results (metricKey metric f) tasks = []
    · simp [hc]
    · rw [if_pos hc, dlookup_dinsert, if_pos rfl]
      simp [passAtKValue, hc]
  · have hnot : ¬(metricKey metric f = k ∧ collectValues results k tasks ≠ []) :=
      fun h => hk h.1
    rw [if_neg hnot]
    by_cases hc : collectValues results (metricKey metric f) tasks = []
    · simp [hc]
    · rw [if_pos hc, dlookup_dinsert, if_neg hk]

theorem passk_aggConfig_lookup (tasks : List String) (results : TaskResults)
    (cfg : AggMetricConfig) (acc : MetricDict) (k : String) :
    dlookup (PassAtKAggregator.aggConfig tasks results acc cfg) k =
      if (∃ f ∈ cfg.filter_list.normalize, metricKey cfg.metric f = k)
          ∧ collectValues results k tasks ≠ [] then
        some (passAtKValue tasks results k)
      else dlookup acc k :=
  foldl_writer cfg.metric (fun k => collectValues results k tasks ≠ [])
    (passAtKValue tasks results)
    (PassAtKAggregator.aggFilter tasks results cfg.metric)
    (fun acc f k => passk_aggFilter_lookup tasks results cfg.metric acc f k)
    cfg.filter_list.normalize acc k

/-- Where the pass@k placeholder looks up a key declared by exactly one
configuration entry. -/
theorem passk_aggregate_lookup (pre post : List AggMetricConfig)
    (cfg : AggMetricConfig) (tasks : List String) (results : TaskResults)
    (f : String) (hf : f ∈ cfg.filter_list.normalize)
    (huniq : ∀ c ∈ pre ++ post, ∀ g ∈ c.filter_list.normalize,
      metricKey c.metric g ≠ metricKey cfg.metric f) :
    dlookup (PassAtKAggregator.aggregate (pre ++ cfg :: post) tasks results)
        (metricKey cfg.metric f) =
      if collectValues results (metricKey cfg.metric f) tasks ≠ [] then
        some (passAtKValue tasks results (metricKey cfg.metric f))
      else none := by
  unfold PassAtKAggregator.aggregate
  exact aggregate_decomp (PassAtKAggregator.aggConfig tasks results)
    (fun k => collectValues results k tasks ≠ [])
    (fun _ k => passAtKValue tasks results k)
    (fun acc cfg k => passk_aggConfig_lookup tasks results cfg acc k)
    pre post cfg f hf huniq

/-- Claim C1: for every group and every (metric, filter) pair declared in its
aggregate_metric_list (as the unique entry for its key), MeanAggregator.aggregate
returns under the key "<metric>,<filter>" the value Σ(value·weight)/Σweight over
exactly those leaf tasks whose task_results entry contains that key, where each
weight is the task sample count when weight_by_size is enabled and 1 otherwise;
and when no task contributes a value for the key, the key is absent from the
output dict. -/
theorem mean_aggregate_weighted_mean_or_skip
    (pre post : List AggMetricConfig) (cfg : AggMetricConfig)
    (tasks : List String) (results : TaskResults) (f : String)
    (hf : f ∈ cfg.filter_list.normalize)
    (huniq : ∀ c ∈ pre ++ post, ∀ g ∈ c.filter_list.normalize,
      metricKey c.metric g ≠ metricKey cfg.metric f) :
    (contributing tasks results (metricKey cfg.metric f) ≠ [] →
      dlookup (MeanAggregator.aggregate (pre ++ cfg :: post) tasks results)
          (metricKey cfg.metric f) =
        some ((((contributing tasks results (metricKey cfg.metric f)).map
            fun t => (taskValue results (metricKey cfg.metric f) t).getD 0 *
              taskWeight results cfg.weight_by_size t).sum) /
          (((contributing tasks results (metricKey cfg.metric f)).map
            (taskWeight results cfg.weight_by_size)).sum)))
    ∧ (contributing tasks results (metricKey cfg.metric f) = [] →
      dlookup (MeanAggregator.aggregate (pre ++ cfg :: post) tasks results)
          (metricKey cfg.metric f) = none) := by
  constructor
  · intro hc
    rw [mean_aggregate_lookup pre post cfg tasks results f hf huniq, if_pos hc]
    rfl
  · intro hc
    rw [mean_aggregate_lookup pre post cfg tasks results f hf huniq,
      if_neg (fun h => h hc)]

/-- Witness for C1: the spec example — acc 0.8 with 100 samples and acc 0.6
with 50 samples aggregate to 11/15 = 0.7333... when weighted by size, and a
key nobody contributes to is absent. -/
theorem mean_aggregate_weighted_mean_or_skip_witness :
    dlookup (MeanAggregator.aggregate
        [⟨"acc", .str "mean", true, .str "none"⟩] ["t1", "t2"]
        [("t1", [("acc,none", 4/5), ("samples", 100)]),
         ("t2", [("acc,none", 3/5), ("samples", 50)])]) "acc,none" =
      some (11/15) := by
  have h := (mean_aggregate_weighted_mean_or_skip [] []
      ⟨"acc", .str "mean", true, .str "none"⟩ ["t1", "t2"]
      [("t1", [("acc,none", 4/5), ("samples", 100)]),
       ("t2", [("acc,none", 3/5), ("samples", 50)])] "none"
      (by simp [StrOrList.normalize]) (by simp)).1
      (by decide)
  refine h.trans (congrArg some ?_)
  show ((4/5 * 100 + (3/5 * 50 + 0)) / (100 + (50 + 0)) : ℚ) = 11/15
  norm_num

/-- Claim C10: with weight_by_size enabled, a task whose result dict contains
the metric key but lacks a "samples" entry is still included by
MeanAggregator.aggregate, with weight 1, rather than being skipped or causing
a failure. -/
theorem mean_aggregate_missing_samples_weight_one
    (pre post : List AggMetricConfig) (cfg : AggMetricConfig)
    (tasks : List String) (results : TaskResults) (f t : String) (v : ℚ)
    (hf : f ∈ cfg.filter_list.normalize)
    (hw : cfg.weight_by_size = true)
    (huniq : ∀ c ∈ pre ++ post, ∀ g ∈ c.filter_list.normalize,
      metricKey c.metric g ≠ metricKey cfg.metric f)
    (ht : t ∈ tasks)
    (hv : taskValue results (metricKey cfg.metric f) t = some v)
    (hs : (dlookup results t).bind (fun td => dlookup td "samples") = none) :
    t ∈ contributing tasks results (metricKey cfg.metric f)
    ∧ taskWeight results cfg.weight_by_size t = 1
    ∧ dlookup (MeanAggregator.aggregate (pre ++ cfg :: post) tasks results)
        (metricKey cfg.metric f) =
      some ((((contributing tasks results (metricKey cfg.metric f)).map
          fun u => (taskValue results (metricKey cfg.metric f) u).getD 0 *
            taskWeight results cfg.weight_by_size u).sum) /
        (((contributing tasks results (metricKey cfg.metric f)).map
          (taskWeight results cfg.weight_by_size)).sum)) := by
  have hmem : t ∈ contributing tasks results (metricKey cfg.metric f) := by
    refine List.mem_filter.mpr ⟨ht, ?_⟩
    simp [hv]
  refine ⟨hmem, ?_, ?_⟩
  · cases hr : dlookup results t with
    | none => simp [taskValue, hr] at hv
    | some td =>
      rw [hr] at hs
      have hs2 : dlookup td "samples" = none := hs
      simp [taskWeight, hw, hr, hs2]
  · have hne : contributing tasks results (metricKey cfg.metric f) ≠ [] :=
      fun hnil => by rw [hnil] at hmem; exact absurd hmem (List.not_mem_nil t)
    rw [mean_aggregate_lookup pre post cfg tasks results f hf huniq, if_pos hne]
    rfl

/-- Witness for C10: task t2 has the metric key but no "samples" entry; it is
weighted 1 while t1 is weighted by its 3 samples: (2·3 + 4·1)/(3 + 1) = 5/2. -/
theorem mean_aggregate_missing_samples_weight_one_witness :
    ("t2" ∈ contributing ["t1", "t2"]
        [("t1", [("acc,none", 2), ("samples", 3)]), ("t2", [("acc,none", 4)])]
        "acc,none")
    ∧ taskWeight [("t1", [("acc,none", 2), ("samples", 3)]),
        ("t2", [("acc,none", 4)])] true "t2" = 1
    ∧ dlookup (MeanAggregator.aggregate
        [⟨"acc", .str "mean", true, .str "none"⟩] ["t1", "t2"]
        [("t1", [("acc,none", 2), ("samples", 3)]), ("t2", [("acc,none", 4)])])
        "acc,none" = some (5/2) := by
  have h := mean_aggregate_missing_samples_weight_one [] []
      ⟨"acc", .str "mean", true, .str "none"⟩ ["t1", "t2"]
      [("t1", [("acc,none", 2), ("samples", 3)]), ("t2", [("acc,none", 4)])]
      "none" "t2" 4
      (by simp [StrOrList.normalize]) rfl (by simp) (by simp) rfl rfl
  refine ⟨h.1, h.2.1, h.2.2.trans (congrArg some ?_)⟩
  show ((2 * 3 + (4 * 1 + 0)) / (3 + (1 + 0)) : ℚ) = 5/2
  norm_num

/-- Claim C2 counterexample: with a single contributing value −1 the harmonic
aggregator returns the number 0.0; it neither raises nor refuses to produce a
value for negative inputs, contradicting the claim that negative values must
be rejected rather than mapped to a number. -/
theorem harmonic_negative_value_returns_zero :
    dlookup (HarmonicMeanAggregator.aggregate
        [⟨"f1", .str "harmonic_mean", false, .str "none"⟩]
        ["t1"] [("t1", [("f1,none", -1)])]) "f1,none" = some 0 := by
  have hne : collectValues [("t1", [("f1,none", -1)])] (metricKey "f1" "none")
      ["t1"] ≠ [] := by decide
  have h := harmonic_aggregate_lookup [] []
      ⟨"f1", .str "harmonic_mean", false, .str "none"⟩ ["t1"]
      [("t1", [("f1,none", -1)])] "none" (by decide) (by simp)
  rw [if_pos hne] at h
  exact h.trans (congrArg some rfl)

/-- Claim C2, amended: HarmonicMeanAggregator.aggregate returns
n / Σ(1/value) when all contributing values are strictly positive, and
returns exactly 0.0 whenever any contributing value is ≤ 0 — for zero values
and for negative values alike (the all-positive guard routes every
non-positive input to the 0.0 branch; nothing raises). -/
theorem harmonic_aggregate_positive_or_zero
    (pre post : List AggMetricConfig) (cfg : AggMetricConfig)
    (tasks : List String) (results : TaskResults) (f : String)
    (hf : f ∈ cfg.filter_list.normalize)
    (huniq : ∀ c ∈ pre ++ post, ∀ g ∈ c.filter_list.normalize,
      metricKey c.metric g ≠ metricKey cfg.metric f) :
    (collectValues results (metricKey cfg.metric f) tasks ≠ [] →
      (∀ v ∈ collectValues results (metricKey cfg.metric f) tasks, 0 < v) →
      dlookup (HarmonicMeanAggregator.aggregate (pre ++ cfg :: post) tasks results)
          (metricKey cfg.metric f) =
        some (((collectValues results (metricKey cfg.metric f) tasks).length : ℚ) /
          ((collectValues results (metricKey cfg.metric f) tasks).map
            fun v => 1 / v).sum))
    ∧ (collectValues results (metricKey cfg.metric f) tasks ≠ [] →
      (∃ v ∈ collectValues results (metricKey cfg.metric f) tasks, v ≤ 0) →
      dlookup (HarmonicMeanAggregator.aggregate (pre ++ cfg :: post) tasks results)
          (metricKey cfg.metric f) = some 0) := by
  constructor
  · intro hne hpos
    rw [harmonic_aggregate_lookup pre post cfg tasks results f hf huniq,
      if_pos hne]
    have hall : (collectValues results (metricKey cfg.metric f) tasks).all
        (fun v => 0 < v) = true := by
      rw [List.all_eq_true]
      intro v hvmem
      exact decide_eq_true (hpos v hvmem)
    simp [harmonicValue, hall]
  · intro hne hneg
    rw [harmonic_aggregate_lookup pre post cfg tasks results f hf huniq,
      if_pos hne]
    obtain ⟨v, hvmem, hvle⟩ := hneg
    have hall : ¬ (collectValues results (metricKey cfg.metric f) tasks).all
        (fun v => 0 < v) = true := by
      rw [List.all_eq_true]
      intro hall
      exact absurd (of_decide_eq_true (hall v hvmem)) (not_lt.mpr hvle)
    simp [harmonicValue, hall]

/-- Witness for the amended C2: f1 values 2 and 4 give harmonic mean
2/(1/2 + 1/4) = 8/3. -/
theorem harmonic_aggregate_positive_or_zero_witness :
    dlookup (HarmonicMeanAggregator.aggregate
        [⟨"f1", .str "harmonic_mean", false, .str "none"⟩] ["t1", "t2"]
        [("t1", [("f1,none", 2)]), ("t2", [("f1,none", 4)])]) "f1,none" =
      some (8/3) := by
  have h := (harmonic_aggregate_positive_or_zero [] []
      ⟨"f1", .str "harmonic_mean", false, .str "none"⟩ ["t1", "t2"]
      [("t1", [("f1,none", 2)]), ("t2", [("f1,none", 4)])] "none"
      (by simp [StrOrList.normalize]) (by simp)).1
      (by decide) (by decide)
  refine h.trans (congrArg some ?_)
  show (((2:ℕ) : ℚ) / (1/2 + (1/4 + 0)) : ℚ) = 8/3
  norm_num

/-- Claim C3 counterexample: both contributing tasks carry their own
"acc_stderr,none" values, yet the aggregated group dict has the metric key
and no stderr companion key at all (and no sentinel marker). -/
theorem mean_aggregate_no_stderr_key :
    dlookup (MeanAggregator.aggregate
        [⟨"acc", .str "mean", false, .str "none"⟩] ["t1", "t2"]
        [("t1", [("acc,none", 4/5), ("acc_stderr,none", 1/100), ("samples", 100)]),
         ("t2", [("acc,none", 3/5), ("acc_stderr,none", 1/50), ("samples", 50)])])
      "acc,none" = some (7/10)
    ∧ dlookup (MeanAggregator.aggregate
        [⟨"acc", .str "mean", false, .str "none"⟩] ["t1", "t2"]
        [("t1", [("acc,none", 4/5), ("acc_stderr,none", 1/100), ("samples", 100)]),
         ("t2", [("acc,none", 3/5), ("acc_stderr,none", 1/50), ("samples", 50)])])
      "acc_stderr,none" = none := by
  constructor
  · have hne : contributing ["t1", "t2"]
        [("t1", [("acc,none", 4/5), ("acc_stderr,none", 1/100), ("samples", 100)]),
         ("t2", [("acc,none", 3/5), ("acc_stderr,none", 1/50), ("samples", 50)])]
        (metricKey "acc" "none") ≠ [] := by decide
    have h := mean_aggregate_lookup [] []
        ⟨"acc", .str "mean", false, .str "none"⟩ ["t1", "t2"]
        [("t1", [("acc,none", 4/5), ("acc_stderr,none", 1/100), ("samples", 100)]),
         ("t2", [("acc,none", 3/5), ("acc_stderr,none", 1/50), ("samples", 50)])]
        "none" (by decide) (by simp)
    rw [if_pos hne] at h
    refine h.trans (congrArg some ?_)
    show ((4/5 * 1 + (3/5 * 1 + 0)) / (1 + (1 + 0)) : ℚ) = 7/10
    norm_num
  · have hnot : ¬((∃ g ∈ (StrOrList.str "none").normalize,
        metricKey "acc" g = "acc_stderr,none") ∧
        contributing ["t1", "t2"]
          [("t1", [("acc,none", 4/5), ("acc_stderr,none", 1/100), ("samples", 100)]),
           ("t2", [("acc,none", 3/5), ("acc_stderr,none", 1/50), ("samples", 50)])]
          "acc_stderr,none" ≠ []) := by
      rintro ⟨⟨g, hg, hgk⟩, -⟩
      simp only [StrOrList.normalize, List.mem_singleton] at hg
      subst hg
      exact absurd hgk (by decide)
    show dlookup (MeanAggregator.aggConfig ["t1", "t2"]
        [("t1", [("acc,none", 4/5), ("acc_stderr,none", 1/100), ("samples", 100)]),
         ("t2", [("acc,none", 3/5), ("acc_stderr,none", 1/50), ("samples", 50)])]
        [] ⟨"acc", .str "mean", false, .str "none"⟩) "acc_stderr,none" = none
    rw [mean_aggConfig_lookup, if_neg hnot]
    rfl

/-- Claim C3, amended: every key of the dict produced by
MeanAggregator.aggregate is one of the declared "<metric>,<filter>" keys; no
"<metric>_stderr,<filter>" companion key, sentinel marker or "samples" count
is ever added by the aggregator. -/
theorem mean_aggregate_output_keys_declared
    (cfgs : List AggMetricConfig) (tasks : List String) (results : TaskResults)
    (k : String) (v : ℚ)
    (h : dlookup (MeanAggregator.aggregate cfgs tasks results) k = some v) :
    ∃ cfg ∈ cfgs, ∃ f ∈ cfg.filter_list.normalize, k = metricKey cfg.metric f := by
  have main : ∀ (l : List AggMetricConfig) (acc : MetricDict),
      dlookup (l.foldl (MeanAggregator.aggConfig tasks results) acc) k = some v →
      (∃ cfg ∈ l, ∃ f ∈ cfg.filter_list.normalize, k = metricKey cfg.metric f)
        ∨ dlookup acc k = some v := by
    intro l
    induction l with
    | nil => intro acc h; exact Or.inr h
    | cons c l ih =>
      intro acc h
      rw [List.foldl_cons] at h
      rcases ih _ h with hl | hacc
      · obtain ⟨cfg, hcfg, hrest⟩ := hl
        exact Or.inl ⟨cfg, List.mem_cons_of_mem _ hcfg, hrest⟩
      · rw [mean_aggConfig_lookup] at hacc
        by_cases hcond : (∃ g ∈ c.filter_list.normalize,
            metricKey c.metric g = k) ∧ contributing tasks results k ≠ []
        · obtain ⟨⟨g, hg, hgk⟩, -⟩ := hcond
          exact Or.inl ⟨c, List.mem_cons_self _ _, g, hg, hgk.symm⟩
        · rw [if_neg hcond] at hacc
          exact Or.inr hacc
  rcases main cfgs [] h with hl | hacc
  · exact hl
  · exact absurd hacc (by simp [dlookup])

/-- Witness for the amended C3: the only key of a one-config aggregation is
the declared "acc,none". -/
theorem mean_aggregate_output_keys_declared_witness :
    ∃ cfg ∈ [(⟨"acc", .str "mean", false, .str "none"⟩ : AggMetricConfig)],
      ∃ f ∈ cfg.filter_list.normalize, "acc,none" = metricKey cfg.metric f := by
  refine mean_aggregate_output_keys_declared
    [⟨"acc", .str "mean", false, .str "none"⟩] ["t1"]
    [("t1", [("acc,none", 1)])] "acc,none" 1 ?_
  have hne : contributing ["t1"] [("t1", [("acc,none", 1)])]
      (metricKey "acc" "none") ≠ [] := by decide
  have h := mean_aggregate_lookup [] []
      ⟨"acc", .str "mean", false, .str "none"⟩ ["t1"]
      [("t1", [("acc,none", 1)])] "none" (by decide) (by simp)
  rw [if_pos hne] at h
  refine h.trans (congrArg some ?_)
  show ((1 * 1 + 0) / (1 + 0) : ℚ) = 1
  norm_num

/-- Claim C5: the shipped PassAtKAggregator.aggregate returns the plain
arithmetic mean (sum over count) of the contributing per-task values for a
declared key — not the combinatorial pass@k quantity. -/
theorem passk_aggregate_plain_mean
    (pre post : List AggMetricConfig) (cfg : AggMetricConfig)
    (tasks : List String) (results : TaskResults) (f : String)
    (hf : f ∈ cfg.filter_list.normalize)
    (huniq : ∀ c ∈ pre ++ post, ∀ g ∈ c.filter_list.normalize,
      metricKey c.metric g ≠ metricKey cfg.metric f)
    (hne : collectValues results (metricKey cfg.metric f) tasks ≠ []) :
    dlookup (PassAtKAggregator.aggregate (pre ++ cfg :: post) tasks results)
        (metricKey cfg.metric f) =
      some ((collectValues results (metricKey cfg.metric f) tasks).sum /
        ((collectValues results (metricKey cfg.metric f) tasks).length : ℚ)) := by
  rw [passk_aggregate_lookup pre post cfg tasks results f hf huniq, if_pos hne]
  rfl

/-- Witness for C5: pass@1 values 1/2 and 1 average to 3/4. -/
theorem passk_aggregate_plain_mean_witness :
    dlookup (PassAtKAggregator.aggregate
        [⟨"pass_at_1", .str "pass@k", false, .str "none"⟩] ["t1", "t2"]
        [("t1", [("pass_at_1,none", 1/2)]), ("t2", [("pass_at_1,none", 1)])])
      "pass_at_1,none" = some (3/4) := by
  have h := passk_aggregate_plain_mean [] []
      ⟨"pass_at_1", .str "pass@k", false, .str "none"⟩ ["t1", "t2"]
      [("t1", [("pass_at_1,none", 1/2)]), ("t2", [("pass_at_1,none", 1)])] "none"
      (by simp [StrOrList.normalize]) (by simp)
      (by decide)
  refine h.trans (congrArg some ?_)
  show ((1/2 + (1 + 0)) / ((2:ℕ) : ℚ) : ℚ) = 3/4
  norm_num

/-- Claim C4: with a non-empty aggregate_metric_list, aggregator selection
dispatches on the first entry's declared kind string (mean, harmonic_mean,
geometric_mean, pass@k), treats a directly invocable kind as a
CustomAggregator, and yields a configuration error for any unrecognized kind;
StandardGroup construction runs the factory, so the error surfaces at
group-construction time (and construction never silently substitutes a
default aggregator). In the embedding every `aggregate` method is a total
function, so no error can arise at aggregation time. -/
theorem aggregator_factory_dispatch :
    (∀ (config : GroupConfig) (first : AggMetricConfig)
        (rest : List AggMetricConfig),
      config.aggregate_metric_list = some (first :: rest) →
      (first.aggregation = Aggregation.str "mean" →
        AggregatorFactory.create_aggregator config = .ok .mean)
      ∧ (first.aggregation = Aggregation.str "harmonic_mean" →
        AggregatorFactory.create_aggregator config = .ok .harmonicMean)
      ∧ (first.aggregation = Aggregation.str "geometric_mean" →
        AggregatorFactory.create_aggregator config = .ok .geometricMean)
      ∧ (first.aggregation = Aggregation.str "pass@k" →
        AggregatorFactory.create_aggregator config = .ok (.passAtK 1))
      ∧ (∀ fn, first.aggregation = Aggregation.fn fn →
        AggregatorFactory.create_aggregator config = .ok (.custom fn))
      ∧ (∀ s, first.aggregation = Aggregation.str s →
        s ∉ (["mean", "harmonic_mean", "geometric_mean", "pass@k"] : List String) →
        AggregatorFactory.create_aggregator config =
          .error ("Unknown aggregation type: " ++ s ++
            ". Expected one of: mean, harmonic_mean, geometric_mean, pass@k, or a callable")))
    ∧ (∀ config : GroupConfig, StandardGroup.init config =
        (AggregatorFactory.create_aggregator config).map
          fun agg => ⟨config, config.group, agg⟩) := by
  constructor
  · intro config first rest hlist
    refine ⟨?_, ?_, ?_, ?_, ?_, ?_⟩
    · intro ha
      simp [AggregatorFactory.create_aggregator, hlist, ha]
    · intro ha
      simp [AggregatorFactory.create_aggregator, hlist, ha]
    · intro ha
      simp [AggregatorFactory.create_aggregator, hlist, ha]
    · intro ha
      simp [AggregatorFactory.create_aggregator, hlist, ha]
    · intro fn ha
      simp [AggregatorFactory.create_aggregator, hlist, ha]
    · intro s ha hs
      simp only [List.mem_cons, List.mem_singleton, not_or] at hs
      obtain ⟨h1, h2, h3, h4, -⟩ := hs
      simp [AggregatorFactory.create_aggregator, hlist, ha, h1, h2, h3, h4]
  · intro config
    unfold StandardGroup.init
    cases AggregatorFactory.create_aggregator config <;> rfl

/-- Witness for C4: the factory maps the kind string mean to the mean
aggregator, and an unrecognized kind string makes group construction fail
with the configuration error. -/
theorem aggregator_factory_dispatch_witness :
    AggregatorFactory.create_aggregator
      ⟨some "g", none, some [⟨"acc", .str "mean", false, .str "none"⟩]⟩ =
      .ok .mean
    ∧ StandardGroup.init
        ⟨some "g", none, some [⟨"acc", .str "bogus", false, .str "none"⟩]⟩ =
      .error ("Unknown aggregation type: bogus" ++
        ". Expected one of: mean, harmonic_mean, geometric_mean, pass@k, or a callable") := by
  constructor
  · exact (aggregator_factory_dispatch.1
      ⟨some "g", none, some [⟨"acc", .str "mean", false, .str "none"⟩]⟩
      ⟨"acc", .str "mean", false, .str "none"⟩ [] rfl).1 rfl
  · rw [(aggregator_factory_dispatch.2)
      ⟨some "g", none, some [⟨"acc", .str "bogus", false, .str "none"⟩]⟩]
    rw [(aggregator_factory_dispatch.1
      ⟨some "g", none, some [⟨"acc", .str "bogus", false, .str "none"⟩]⟩
      ⟨"acc", .str "bogus", false, .str "none"⟩ [] rfl).2.2.2.2.2
      "bogus" rfl (by decide)]
    rfl

/-- A Python exception as `GenerationScorer._compute_metrics` distinguishes
them: `TypeError` (the signature-mismatch retry trigger) versus anything
else. -/
inductive PyExc where
  | typeError
  | other (msg : String)
deriving DecidableEq

/-- What a metric function call returns: a bare score or a dict of scores
(multi-metric functions). -/
inductive ScoreVal where
  | num (v : ℚ)
  | dict (entries : List (String × ℚ))
deriving DecidableEq

/-- The gold target of a GenResult; `isinstance(gold, list)` decides how the
references argument is built. -/
inductive Gold where
  | str (s : String)
  | list (l : List String)
deriving DecidableEq

/-- The references argument: `[gold] if not isinstance(gold, list) else gold`. -/
def Gold.asReferences : Gold → List String
  | .str s => [s]
  | .list l => l

/-- A metric scoring function with its two Python calling conventions: the
keyword call `fn(references=..., predictions=..., **kwargs)` and the legacy
positional call `fn([gold, generation])`; each call either returns a value
or raises.  The metric's fixed `kwargs` are part of the behaviour of
`callKw`. -/
structure MetricFn where
  callKw : List String → List String → Except PyExc ScoreVal
  callPos : Gold → String → Except PyExc ScoreVal

/-- Embedding of `lm_eval.config.metric.MetricConfig` (the fields `_compute_metrics`
reads): the metric name and its optional scoring function. -/
structure MetricConfig where
  name : String
  fn : Option MetricFn

/-- The try/except of `_compute_metrics`: call with keyword arguments
references / predictions; on `TypeError` retry once with the legacy single
positional list `[gold, generation]`; a non-TypeError from the first call,
or any exception from the retry, propagates. -/
def invokeMetric (f : MetricFn) (gold : Gold) (generation : String) :
    Except PyExc ScoreVal :=
  match f.callKw gold.asReferences [generation] with
  | .ok s => .ok s
  | .error .typeError => f.callPos gold generation
  | .error (.other m) => .error (.other m)

/-- Model of `scores[k].append(v)` on a `defaultdict(list)`. -/
def dappend (d : List (String × List ℚ)) (k : String) (v : ℚ) :
    List (String × List ℚ) :=
  match d with
  | [] => [(k, [v])]
  | (k0, l) :: rest =>
    if k0 = k then (k, l ++ [v]) :: rest else (k0, l) :: dappend rest k v

/-- Merging one call result into the score dict: a dict result merges every
key, a bare value is appended under the metric's own name. -/
def mergeScore (scores : List (String × List ℚ)) (metricName : String) :
    ScoreVal → List (String × List ℚ)
  | .dict entries => entries.foldl (fun acc p => dappend acc p.1 p.2) scores
  | .num v => dappend scores metricName v

/-- The inner `for metric in metrics` loop of `_compute_metrics` for one
generation: metrics with `fn is None` are skipped, an uncaught exception
aborts the computation. -/
def scoreOneGeneration (gold : Gold) (generation : String) :
    List (String × List ℚ) → List MetricConfig →
    Except PyExc (List (String × List ℚ))
  | scores, [] => .ok scores
  | scores, m :: rest =>
    match m.fn with
    | none => scoreOneGeneration gold generation scores rest
    | some f =>
      match invokeMetric f gold generation with
      | .error e => .error e
      | .ok s => scoreOneGeneration gold generation (mergeScore scores m.name s) rest

/-- Embedding of `GenerationScorer._compute_metrics` (src/lm_eval/api/scorer.py): the
outer loop over the generated strings, starting from an empty score dict. -/
def GenerationScorer.compute_metrics (metrics : List MetricConfig) (gold : Gold) :
    List (String × List ℚ) → List String →
    Except PyExc (List (String × List ℚ))
  | scores, [] => .ok scores
  | scores, g :: gens =>
    match scoreOneGeneration gold g scores metrics with
    | .error e => .error e
    | .ok scores2 => GenerationScorer.compute_metrics metrics gold scores2 gens

/-- Claim C6: for every generation and every metric with a non-null scoring
function, the metric is first invoked with keyword references / predictions;
a TypeError triggers exactly one retry with the legacy positional
`[gold, generation]` argument; an exception from the retry propagates out of
the whole computation; a mapping result merges every key into the score
dict; a bare result is appended under the metric's own name. -/
theorem generation_scorer_metric_invocation
    (f : MetricFn) (gold : Gold) (generation : String)
    (scores : List (String × List ℚ)) (name : String) :
    (∀ v rest, f.callKw gold.asReferences [generation] = .ok (.num v) →
      scoreOneGeneration gold generation scores (⟨name, some f⟩ :: rest) =
        scoreOneGeneration gold generation (dappend scores name v) rest)
    ∧ (∀ entries rest,
      f.callKw gold.asReferences [generation] = .ok (.dict entries) →
      scoreOneGeneration gold generation scores (⟨name, some f⟩ :: rest) =
        scoreOneGeneration gold generation
          (entries.foldl (fun acc p => dappend acc p.1 p.2) scores) rest)
    ∧ (∀ s rest, f.callKw gold.asReferences [generation] = .error .typeError →
      f.callPos gold generation = .ok s →
      scoreOneGeneration gold generation scores (⟨name, some f⟩ :: rest) =
        scoreOneGeneration gold generation (mergeScore scores name s) rest)
    ∧ (∀ e rest, f.callKw gold.asReferences [generation] = .error .typeError →
      f.callPos gold generation = .error e →
      scoreOneGeneration gold generation scores (⟨name, some f⟩ :: rest) =
        .error e)
    ∧ (∀ e rest gens,
      f.callKw gold.asReferences [generation] = .error .typeError →
      f.callPos gold generation = .error e →
      GenerationScorer.compute_metrics (⟨name, some f⟩ :: rest) gold scores
        (generation :: gens) = .error e) := by
  refine ⟨?_, ?_, ?_, ?_, ?_⟩
  · intro v rest hkw
    simp [scoreOneGeneration, invokeMetric, hkw, mergeScore]
  · intro entries rest hkw
    simp [scoreOneGeneration, invokeMetric, hkw, mergeScore]
  · intro s rest hkw hpos
    simp [scoreOneGeneration, invokeMetric, hkw, hpos]
  · intro e rest hkw hpos
    simp [scoreOneGeneration, invokeMetric, hkw, hpos]
  · intro e rest gens hkw hpos
    simp [GenerationScorer.compute_metrics, scoreOneGeneration, invokeMetric,
      hkw, hpos]

/-- A metric function that only understands the legacy positional calling
convention: the keyword call raises TypeError, the positional call scores 1. -/
def legacyOnlyMetric : MetricFn :=
  ⟨fun _ _ => .error .typeError, fun _ _ => .ok (.num 1)⟩

/-- Witness for C6: the legacy-only metric is retried positionally and its
score lands under the metric's own name. -/
theorem generation_scorer_metric_invocation_witness :
    scoreOneGeneration (Gold.str "42") "42" []
      [⟨"exact_match", some legacyOnlyMetric⟩] =
      .ok [("exact_match", [1])] := by
  have h := (generation_scorer_metric_invocation legacyOnlyMetric
      (Gold.str "42") "42" [] "exact_match").2.2.1 (.num 1) [] rfl rfl
  exact h.trans rfl

/-- What `dill.loads` makes of a cache file: either a successful
deserialization to the stored value or an exception (corrupt or
partially-written file). -/
inductive Blob (α : Type) where
  | good (data : α)
  | corrupt
deriving DecidableEq

/-- Embedding of `CacheStatistics` (src/lm_eval/caching/cache.py). -/
structure CacheStatistics where
  hits : Nat := 0
  misses : Nat := 0
  saves : Nat := 0
  load_errors : Nat := 0
  save_errors : Nat := 0
deriving DecidableEq

def CacheStatistics.record_hit (s : CacheStatistics) : CacheStatistics :=
  { s with hits := s.hits + 1 }

def CacheStatistics.record_miss (s : CacheStatistics) : CacheStatistics :=
  { s with misses := s.misses + 1 }

def CacheStatistics.record_save (s : CacheStatistics) : CacheStatistics :=
  { s with saves := s.saves + 1 }

def CacheStatistics.record_load_error (s : CacheStatistics) : CacheStatistics :=
  { s with load_errors := s.load_errors + 1 }

def CacheStatistics.record_save_error (s : CacheStatistics) : CacheStatistics :=
  { s with save_errors := s.save_errors + 1 }

/-- Embedding of `CacheKey` (src/lm_eval/caching/cache.py). -/
structure CacheKey where
  task_name : String
  num_fewshot : Int
  rank : Int
  world_size : Int
  apply_chat_template : Bool := false
  fewshot_as_multiturn : Bool := false
  system_instruction_hash : Option String := none
  tokenizer_name : String := ""
deriving DecidableEq

/-- Embedding of `CacheKey.to_string`: join the parts with "-"; each optional part is
appended only when truthy (in Python both None and the empty string are
falsy). -/
def CacheKey.to_string (k : CacheKey) : String :=
  String.intercalate "-"
    (["requests-" ++ k.task_name,
      toString k.num_fewshot ++ "shot",
      "rank" ++ toString k.rank,
      "world_size" ++ toString k.world_size]
     ++ (if k.apply_chat_template then ["chat_template"] else [])
     ++ (if k.fewshot_as_multiturn then ["fewshot_as_multiturn"] else [])
     ++ (match k.system_instruction_hash with
         | some h => if h ≠ "" then ["system_prompt_hash" ++ h] else []
         | none => [])
     ++ (if k.tokenizer_name ≠ "" then ["tokenizer" ++ k.tokenizer_name] else []))

/-- The constant `HASH_PREFIX`: the sha256 hex digest of the constant salt
"EleutherAI-lm-evaluation-harness", precomputed. -/
def HASH_PREFIX : String :=
  "57669194e25afae85ea14f096de3ea7c6247d45e62770904575c34cbce2478f0"

/-- The constant FILE_SUFFIX: a dot, then HASH_PREFIX, then dot-pickle. -/
def FILE_SUFFIX : String := "." ++ HASH_PREFIX ++ ".pickle"

/-- The state of one `RequestCacheManager`: its cache directory, the files
on disk under that directory (path → file contents), and the statistics
counters. -/
structure CacheState (α : Type) where
  cache_dir : String
  fs : List (String × Blob α)
  statistics : CacheStatistics
deriving DecidableEq

/-- Embedding of `RequestCacheManager._get_cache_path`. -/
def get_cache_path (cache_dir : String) (key : CacheKey) : String :=
  cache_dir ++ "/" ++ key.to_string ++ FILE_SUFFIX

/-- Embedding of `RequestCacheManager.load`: a missing file records a miss and returns
None; a file that fails to deserialize (any exception) records a load error
(not a miss), is logged, and returns None; a readable file records a hit and
returns the data. -/
def RequestCacheManager.load {α : Type} (st : CacheState α) (key : CacheKey) :
    Option α × CacheState α :=
  match dlookup st.fs (get_cache_path st.cache_dir key) with
  | none => (none, { st with statistics := st.statistics.record_miss })
  | some (.good d) => (some d, { st with statistics := st.statistics.record_hit })
  | some .corrupt =>
    (none, { st with statistics := st.statistics.record_load_error })

/-- Embedding of `RequestCacheManager.save`: ensure the directory, serialize and write.
`writeOk` is the environment: whether the directory creation, serialization
and write succeed.  Either way the function returns a Bool — the whole body
is wrapped in try/except, so no exception ever propagates to the caller; a
failure records a save error and reports False. -/
def RequestCacheManager.save {α : Type} (st : CacheState α) (key : CacheKey)
    (data : α) (writeOk : Bool) : Bool × CacheState α :=
  if writeOk then
    (true,
     { st with
       fs := dinsert st.fs (get_cache_path st.cache_dir key) (.good data),
       statistics := st.statistics.record_save })
  else
    (false, { st with statistics := st.statistics.record_save_error })

/-- Claim C7: loading a nonexistent file records exactly one miss and
returns the absent value; loading an existing file that fails to deserialize
records exactly one load error (not a miss) and returns the absent value;
and a failing save never propagates — it is counted as exactly one save
error and reported as unsuccessful. -/
theorem cache_error_accounting {α : Type} (st : CacheState α) (key : CacheKey) :
    (dlookup st.fs (get_cache_path st.cache_dir key) = none →
      RequestCacheManager.load st key =
        (none, { st with statistics :=
          { st.statistics with misses := st.statistics.misses + 1 } }))
    ∧ (dlookup st.fs (get_cache_path st.cache_dir key) = some .corrupt →
      RequestCacheManager.load st key =
        (none, { st with statistics :=
          { st.statistics with load_errors := st.statistics.load_errors + 1 } }))
    ∧ (∀ data : α, RequestCacheManager.save st key data false =
        (false, { st with statistics :=
          { st.statistics with save_errors := st.statistics.save_errors + 1 } })) := by
  refine ⟨?_, ?_, ?_⟩
  · intro h
    simp [RequestCacheManager.load, h, CacheStatistics.record_miss]
  · intro h
    simp [RequestCacheManager.load, h, CacheStatistics.record_load_error]
  · intro data
    simp [RequestCacheManager.save, CacheStatistics.record_save_error]

/-- Witness for C7: on an empty cache directory a load is a miss, and a
failed save is counted and reported unsuccessful. -/
theorem cache_error_accounting_witness :
    RequestCacheManager.load
      (⟨"/cache", [], ⟨0, 0, 0, 0, 0⟩⟩ : CacheState ℚ) ⟨"t", 0, 0, 1, false, false, none, ""⟩ =
      (none, ⟨"/cache", [], ⟨0, 1, 0, 0, 0⟩⟩)
    ∧ RequestCacheManager.save
      (⟨"/cache", [], ⟨0, 0, 0, 0, 0⟩⟩ : CacheState ℚ) ⟨"t", 0, 0, 1, false, false, none, ""⟩ 7 false =
      (false, ⟨"/cache", [], ⟨0, 0, 0, 0, 1⟩⟩) := by
  have h := cache_error_accounting
    (⟨"/cache", [], ⟨0, 0, 0, 0, 0⟩⟩ : CacheState ℚ) ⟨"t", 0, 0, 1, false, false, none, ""⟩
  exact ⟨(h.1 rfl).trans rfl, (h.2.2 7).trans rfl⟩

/-- Claim C8: after a successful save of `data` under `key`, a load of the
same key on the same manager returns exactly `data`, and that load is
recorded as a hit. -/
theorem cache_save_load_round_trip {α : Type} (st : CacheState α)
    (key : CacheKey) (data : α) :
    (RequestCacheManager.save st key data true).1 = true
    ∧ RequestCacheManager.load (RequestCacheManager.save st key data true).2 key =
      (some data,
       { (RequestCacheManager.save st key data true).2 with
         statistics :=
           (RequestCacheManager.save st key data true).2.statistics.record_hit }) := by
  constructor
  · rfl
  · show RequestCacheManager.load
      { st with
        fs := dinsert st.fs (get_cache_path st.cache_dir key) (.good data),
        statistics := st.statistics.record_save } key = _
    unfold RequestCacheManager.load
    rw [dlookup_dinsert, if_pos rfl]
    rfl

/-- A child in a group's `children` list: a nested group or a task. -/
inductive GChild where
  | group (name : String)
  | task (name : String)
deriving DecidableEq

/-- One registered group: its `children` references and its declared
`config.task` name list (used by the unknown-reference check). -/
structure GroupNode where
  children : List GChild
  taskRefs : List String
deriving DecidableEq

/-- The group object graph reachable through `children` references, indexed
by group name.  Python group objects can form genuinely cyclic graphs
through `add_child` (C.add_child(A) links back to A), which a Lean inductive
tree cannot represent, so the graph is an adjacency map. -/
abbrev GroupGraph := List (String × GroupNode)

/-- The `children` list of a named group. -/
def childrenOf (g : GroupGraph) (name : String) : List GChild :=
  match dlookup g name with
  | some n => n.children
  | none => []

/-- The group names among a `children` list (the `isinstance(child, Group)`
test of the loops below; tasks are skipped). -/
def childGroups (cs : List GChild) : List String :=
  cs.filterMap fun c =>
    match c with
    | .group n => some n
    | .task _ => none

/-- Combine the child results of `check_cycles` in order: the first cycle
found is returned (`for child in children: ... if cycle: return cycle`);
an exhausted recursion bound anywhere is `none`. -/
def firstCycle : List (Option (Option (List String))) → Option (Option (List String))
  | [] => some none
  | none :: _ => none
  | some (some cyc) :: _ => some (some cyc)
  | some none :: rest => firstCycle rest

/-- Embedding of `check_cycles` inside `GroupManager.validate_hierarchy`: DFS carrying
the current path; a name already on the path is returned as the cycle
`path + [name]`; otherwise descend into the group children in order and
return the first cycle found.  `fuel` bounds the recursion depth (`none` =
bound hit); the Python recursion of this phase always terminates because
the path test stops descent, so any bound larger than the graph is enough. -/
def checkCycles (g : GroupGraph) : Nat → String → List String →
    Option (Option (List String))
  | 0, _, _ => none
  | fuel + 1, name, path =>
    if name ∈ path then some (some (path ++ [name]))
    else
      firstCycle ((childGroups (childrenOf g name)).map
        fun c => checkCycles g fuel c (path ++ [name]))

/-- Embedding of `Group.traverse` with the `collect_groups` visitor of the orphan phase:
pre-order DFS adding every visited group name to the reached set, threading
the set through the children in order.  There is no cycle guard here — on a
cyclic graph the recursion never completes, so the result is `none` for
every fuel bound. -/
def traverseCollect (g : GroupGraph) : Nat → String → List String →
    Option (List String)
  | 0, _, _ => none
  | fuel + 1, name, acc =>
    (childGroups (childrenOf g name)).foldl
      (fun racc c =>
        match racc with
        | none => none
        | some a => traverseCollect g fuel c a)
      (some (if name ∈ acc then acc else acc ++ [name]))

/-- Embedding of the `GroupManager` state as `validate_hierarchy` reads it: the name→group
index in registration order, the registered task names, and the root list. -/
structure GroupManager where
  groups : GroupGraph
  tasks : List String
  root_groups : List String

/-- The `for root in self.root_groups` cycle loop of `validate_hierarchy`:
one message per root whose DFS finds a cycle. -/
def cycleIssues (g : GroupGraph) (fuel : Nat) : List String →
    Option (List String)
  | [] => some []
  | root :: rest =>
    match checkCycles g fuel root [] with
    | none => none
    | some res =>
      match cycleIssues g fuel rest with
      | none => none
      | some tail =>
        some ((match res with
          | some cycle =>
            ["Circular dependency detected: " ++ String.intercalate " -> " cycle]
          | none => []) ++ tail)

/-- The `for root in self.root_groups: root.traverse(collect_groups)` loop
of the orphan phase. -/
def collectReachable (g : GroupGraph) (fuel : Nat) : List String →
    List String → Option (List String)
  | [], acc => some acc
  | root :: rest, acc =>
    match traverseCollect g fuel root acc with
    | none => none
    | some acc2 => collectReachable g fuel rest acc2

/-- Embedding of `GroupManager.validate_hierarchy` (src/lm_eval/group_manager.py):
cycle messages, then orphan messages (registered groups never reached from a
root, reported in registration order), then unknown task/group references.
`none` means a recursion bound was exceeded — in CPython, a
RecursionError. -/
def GroupManager.validate_hierarchy (mgr : GroupManager) (fuel : Nat) :
    Option (List String) :=
  match cycleIssues mgr.groups fuel mgr.root_groups with
  | none => none
  | some cycleMsgs =>
    match collectReachable mgr.groups fuel mgr.root_groups [] with
    | none => none
    | some reached =>
      let orphanMsgs :=
        ((mgr.groups.map Prod.fst).filter fun n => !(reached.contains n)).map
          fun o => "Orphaned group (not in any hierarchy): " ++ o
      let refMsgs := mgr.groups.foldl (fun acc p =>
        acc ++ (p.2.taskRefs.filter fun tn =>
            (dlookup mgr.groups tn).isNone && !(mgr.tasks.contains tn)).map
          fun tn => "Group " ++ p.1 ++ " references unknown task/group: " ++ tn) []
      some (cycleMsgs ++ orphanMsgs ++ refMsgs)

/-- The synthetic 3-group cycle A→B→C→A, with all three groups registered
before the links are made (so all three sit in `root_groups`). -/
def cycleGraphABC : GroupGraph :=
  [("A", ⟨[.group "B"], []⟩), ("B", ⟨[.group "C"], []⟩),
   ("C", ⟨[.group "A"], []⟩)]

/-- The manager holding the 3-cycle. -/
def cycleManagerABC : GroupManager := ⟨cycleGraphABC, [], ["A", "B", "C"]⟩

/-- On the 3-cycle, `traverseCollect` never completes, whatever the bound. -/
theorem traverseCollect_cycleABC_diverges :
    ∀ fuel : Nat, ∀ acc : List String,
      traverseCollect cycleGraphABC fuel "A" acc = none
      ∧ traverseCollect cycleGraphABC fuel "B" acc = none
      ∧ traverseCollect cycleGraphABC fuel "C" acc = none := by
  intro fuel
  induction fuel with
  | zero => intro acc; exact ⟨rfl, rfl, rfl⟩
  | succ n ih =>
    intro acc
    exact ⟨(ih (if "A" ∈ acc then acc else acc ++ ["A"])).2.1,
      (ih (if "B" ∈ acc then acc else acc ++ ["B"])).2.2,
      (ih (if "C" ∈ acc then acc else acc ++ ["C"])).1⟩

/-- Claim C9 (refuted by the code): the cycle phase of validate_hierarchy
does detect the synthetic 3-cycle A→B→C→A and reports its path, and an
isolated declared root yields no issues at all; but the orphan phase then
runs Group.traverse, which has no cycle guard, so on the very cyclic input
the detector is for, validate_hierarchy exceeds every recursion bound and
never returns (in CPython: RecursionError) — it does not return the report
list the claim promises. -/
theorem validate_hierarchy_crashes_on_cycle :
    checkCycles cycleGraphABC 4 "A" [] = some (some ["A", "B", "C", "A"])
    ∧ cycleIssues cycleGraphABC 4 ["A", "B", "C"] =
        some ["Circular dependency detected: A -> B -> C -> A",
          "Circular dependency detected: B -> C -> A -> B",
          "Circular dependency detected: C -> A -> B -> C"]
    ∧ (∀ fuel : Nat, cycleManagerABC.validate_hierarchy fuel = none)
    ∧ GroupManager.validate_hierarchy ⟨[("solo", ⟨[], []⟩)], [], ["solo"]⟩ 2 =
        some [] := by
  refine ⟨by decide, by decide, ?_, by decide⟩
  intro fuel
  unfold GroupManager.validate_hierarchy
  cases h1 : cycleIssues cycleManagerABC.groups fuel cycleManagerABC.root_groups with
  | none => rfl
  | some msgs =>
    have hA := (traverseCollect_cycleABC_diverges fuel []).1
    show (match collectReachable cycleManagerABC.groups fuel
        cycleManagerABC.root_groups [] with
      | none => none
      | some reached => _) = none
    have hcol : collectReachable cycleManagerABC.groups fuel
        cycleManagerABC.root_groups [] = none := by
      show (match traverseCollect cycleGraphABC fuel "A" [] with
        | none => none
        | some acc2 => collectReachable cycleGraphABC fuel ["B", "C"] acc2) = none
      rw [hA]
    rw [hcol]

end LmEval
